import Mathlib

/-!
Verification of the upload/list contract of `webapp/app.py` (teams-vid).

The repository's only non-framework logic is the pair of operations

  * `add_file_and_metadata_to_blob_storage(file_name, file_contents,
    file_content_type)` — derives a lower-cased extension from the file
    name via `file_name.split(".")[-1].lower()`, generates a fresh
    UUIDv4 string, and uploads the bytes under the key
    `f"{uuid}.{extension}"` together with a fixed metadata map;

  * `gallery(request)` — enumerates all blobs of the container with
    their metadata and projects `metadata["uuid"]`, `metadata["author"]`,
    `metadata["title"]`, `metadata["badge"]` (plus a hard-coded image
    URL) into one display record per blob.

This file embeds those two operations shallowly.  Bytes are `Nat`
(values below 256 in practice; nothing here depends on the bound),
strings are Lean `String`s, and the blob container is a list of `Blob`
values.  Randomness of `uuid.uuid4()` is modelled by a `Nat` seed `r`
whose base-256 digits are the sixteen random bytes; `uuid4` forces the
version and variant bits exactly as CPython's `uuid.UUID(int, version=4)`
does.  Python exceptions (the `KeyError` of `metadata[...]` and a failed
`upload_blob`) are modelled with `Option`/`Except`; the statements after
a raising statement do not run, which the `*Run` wrappers record
explicitly (in the source neither handler has a `try`/`finally`, so the
`close()` calls are skipped when an exception propagates).
-/

set_option maxHeartbeats 1000000

/-- One stored object of the blob container: the blob name (key), the raw
byte content, the MIME content type recorded by `ContentSettings`, and the
string-to-string metadata map attached by `upload_blob`. -/
structure Blob where
  name : String
  contents : List Nat
  contentType : String
  metadata : List (String × String)
deriving DecidableEq

/-- Embedding of Python's `s.split(".")`: splits a character list at every
occurrence of the dot, keeping empty segments, and never returns an empty
list (on the empty string, `str.split` yields `[""]`). -/
def splitOnDot : List Char → List (List Char)
  | [] => [[]]
  | c :: cs =>
    if c = '.' then [] :: splitOnDot cs
    else
      match splitOnDot cs with
      | [] => [[c]]
      | g :: gs => (c :: g) :: gs

/-- Embedding of Python's `s.lower()` restricted to ASCII, which is all the
source ever feeds it: each character is lower-cased independently. -/
def lowerStr (s : String) : String :=
  String.mk (s.data.map Char.toLower)

/-- Embedding of `file_name.split(".")[-1].lower()` (line 82 of
`webapp/app.py`): the last `.`-separated segment of the file name,
lower-cased.  Python's `[-1]` is total here because `split` never returns
an empty list. -/
def extensionOf (file_name : String) : String :=
  lowerStr (String.mk ((splitOnDot file_name.data).getLastD []))

/-- The sixteen lower-case hexadecimal digits, as CPython's `'%032x'`
formatting uses them. -/
def hexDigit (n : Nat) : Char :=
  if n < 10 then Char.ofNat (48 + n) else Char.ofNat (87 + n)

/-- Two-character lower-case hexadecimal rendering of one byte. -/
def byteHex (b : Nat) : List Char :=
  [hexDigit (b / 16 % 16), hexDigit (b % 16)]

/-- The `i`-th random byte drawn from the seed `r` (base-256 digits of the
seed stand in for the sixteen bytes of `os.urandom(16)`). -/
def randByte (r i : Nat) : Nat :=
  r / 256 ^ i % 256

/-- Embedding of `str(uuid.uuid4())`: sixteen random bytes with the version
nibble of byte 6 forced to `4` and the two top bits of byte 8 forced to
`10` (RFC 4122 variant), rendered as lower-case hex in the canonical
8-4-4-4-12 grouping. -/
def uuid4 (r : Nat) : String :=
  String.mk
    (byteHex (randByte r 0) ++ byteHex (randByte r 1) ++
      byteHex (randByte r 2) ++ byteHex (randByte r 3) ++
      ('-' :: (byteHex (randByte r 4) ++ byteHex (randByte r 5) ++
      ('-' :: (byteHex (randByte r 6 % 16 + 64) ++ byteHex (randByte r 7) ++
      ('-' :: (byteHex (randByte r 8 % 64 + 128) ++ byteHex (randByte r 9) ++
      ('-' :: (byteHex (randByte r 10) ++ byteHex (randByte r 11) ++
        byteHex (randByte r 12) ++ byteHex (randByte r 13) ++
        byteHex (randByte r 14) ++ byteHex (randByte r 15))))))))))

/-- A character is a lower-case hexadecimal digit. -/
def isHexChar (c : Char) : Bool :=
  (('0' ≤ c && c ≤ '9') || ('a' ≤ c && c ≤ 'f'))

/-- UUIDv4 string syntax: 36 characters in the 8-4-4-4-12 hyphenated
grouping, all hex digits, with `4` leading the third group and one of
`8`, `9`, `a`, `b` leading the fourth. -/
def isUUIDv4 (s : String) : Bool :=
  match s.data with
  | a0 :: a1 :: a2 :: a3 :: a4 :: a5 :: a6 :: a7 :: '-' ::
      b0 :: b1 :: b2 :: b3 :: '-' ::
      c0 :: c1 :: c2 :: c3 :: '-' ::
      d0 :: d1 :: d2 :: d3 :: '-' ::
      e0 :: e1 :: e2 :: e3 :: e4 :: e5 :: e6 :: e7 :: e8 :: e9 ::
      e10 :: e11 :: [] =>
    ([a0, a1, a2, a3, a4, a5, a6, a7, b0, b1, b2, b3, c1, c2, c3,
      d1, d2, d3, e0, e1, e2, e3, e4, e5, e6, e7, e8, e9, e10, e11].all
        isHexChar)
      && c0 == '4'
      && (d0 == '8' || d0 == '9' || d0 == 'a' || d0 == 'b')
  | _ => false

/-- Embedding of `add_file_and_metadata_to_blob_storage` (lines 78–103 of
`webapp/app.py`), as the blob it constructs and uploads: the key is
`f"{file_uuid_str}.{extension}"`, the content and content type are stored
unchanged, and the metadata map is exactly the five-entry dict of the
source (original file name, the generated uuid, and the three hard-coded
placeholder display fields). -/
def add_file_and_metadata_to_blob_storage
    (r : Nat) (file_name : String) (file_contents : List Nat)
    (file_content_type : String) : Blob :=
  let extension := extensionOf file_name
  let file_uuid_str := uuid4 r
  { name := file_uuid_str ++ "." ++ extension
    contents := file_contents
    contentType := file_content_type
    metadata :=
      [("original_file_name", file_name),
       ("uuid", file_uuid_str),
       ("author", "Dummy User"),
       ("title", "Dummy title"),
       ("badge", "dummy badge")] }

/-- The effect of one upload on the container: `upload_blob` creates
exactly the one object named `new_filename`. -/
def uploadToStore (store : List Blob) (r : Nat) (file_name : String)
    (file_contents : List Nat) (file_content_type : String) : List Blob :=
  store ++ [add_file_and_metadata_to_blob_storage r file_name file_contents
    file_content_type]

/-- Trace of one call of `add_file_and_metadata_to_blob_storage` against a
store whose single write either succeeds or raises: the source performs
exactly one `upload_blob` call with no `try`/`except` and no retry, so a
raised error propagates unchanged and the subsequent `blob.close()` line
never runs. -/
structure UploadTrace where
  result : Except String Blob
  writeAttempts : Nat
  blobClosed : Bool

/-- Run the upload against a backing store whose write outcome is
`writeResult`.  On success the constructed blob is stored and
`blob.close()` runs; on a raised storage error the error is surfaced to
the caller as-is and the close line is skipped. -/
def addFileRun (writeResult : Except String Unit) (r : Nat)
    (file_name : String) (file_contents : List Nat)
    (file_content_type : String) : UploadTrace :=
  let b := add_file_and_metadata_to_blob_storage r file_name file_contents
    file_content_type
  match writeResult with
  | Except.ok _ => ⟨Except.ok b, 1, true⟩
  | Except.error e => ⟨Except.error e, 1, false⟩

/-- One record of the gallery view, as built on lines 47–55 of
`webapp/app.py`. -/
structure GalleryRecord where
  uuid : String
  image_url : String
  author : String
  title : String
  badge : String
deriving DecidableEq

/-- The hard-coded placeholder graphic used for every gallery record. -/
def placeholderImageUrl : String :=
  "https://bootsnipp.com/bootstrap-builder/libs/builder/icons/image.svg"

/-- Projection of one blob's metadata into a gallery record: the four
subscript accesses `metadata["uuid"]`, `metadata["author"]`,
`metadata["title"]`, `metadata["badge"]` each raise `KeyError` when the
key is absent (modelled as `none`); no default is substituted. -/
def projectBlob (b : Blob) : Option GalleryRecord :=
  match b.metadata.lookup "uuid", b.metadata.lookup "author",
      b.metadata.lookup "title", b.metadata.lookup "badge" with
  | some u, some a, some t, some bd =>
    some ⟨u, placeholderImageUrl, a, t, bd⟩
  | _, _, _, _ => none

/-- Embedding of the blob loop of `gallery` (lines 42–55): one record is
appended per enumerated blob, in enumeration order, and a `KeyError` on
any blob aborts the whole listing. -/
def gallery : List Blob → Option (List GalleryRecord)
  | [] => some []
  | b :: bs =>
    match projectBlob b, gallery bs with
    | some rec, some recs => some (rec :: recs)
    | _, _ => none

/-- Trace of one call of the `gallery` handler: the two `close()` calls
(lines 56–57) come textually after the loop with no `try`/`finally`, so
they run exactly when the loop completed without raising. -/
structure GalleryTrace where
  records : Option (List GalleryRecord)
  containerClosed : Bool
  serviceClosed : Bool
deriving DecidableEq

/-- Run the `gallery` handler on the current container contents. -/
def galleryRun (store : List Blob) : GalleryTrace :=
  match gallery store with
  | some recs => ⟨some recs, true, true⟩
  | none => ⟨none, false, false⟩

/-! ### Helper lemmas about `splitOnDot` -/

theorem splitOnDot_ne_nil (cs : List Char) : splitOnDot cs ≠ [] := by
  induction cs with
  | nil => simp [splitOnDot]
  | cons c cs ih =>
    simp only [splitOnDot]
    split
    · simp
    · split
      · simp
      · simp

theorem splitOnDot_dot_cons (cs : List Char) :
    splitOnDot ('.' :: cs) = [] :: splitOnDot cs := by
  simp [splitOnDot]

theorem splitOnDot_cons_ne (c : Char) (cs : List Char) (hc : c ≠ '.') (g : List Char)
    (gs : List (List Char)) (hsp : splitOnDot cs = g :: gs) :
    splitOnDot (c :: cs) = (c :: g) :: gs := by
  simp only [splitOnDot, if_neg hc, hsp]

theorem splitOnDot_no_dot (cs : List Char) (h : '.' ∉ cs) : splitOnDot cs = [cs] := by
  induction cs with
  | nil => rfl
  | cons c cs ih =>
    have hc : c ≠ '.' := fun he => h (he ▸ List.mem_cons_self c cs)
    have hcs : '.' ∉ cs := fun hm => h (List.mem_cons_of_mem c hm)
    exact splitOnDot_cons_ne c cs hc cs [] (ih hcs)

theorem splitOnDot_two_groups (cs : List Char) (h : '.' ∈ cs) :
    2 ≤ (splitOnDot cs).length := by
  induction cs with
  | nil => cases h
  | cons c cs ih =>
    by_cases hc : c = '.'
    · subst hc
      rw [splitOnDot_dot_cons]
      have hne := splitOnDot_ne_nil cs
      have h1 : 1 ≤ (splitOnDot cs).length := by
        cases hsp : splitOnDot cs with
        | nil => exact absurd hsp hne
        | cons g gs => simp
      simpa using h1
    · have hcs : '.' ∈ cs := by
        cases List.mem_cons.mp h with
        | inl he => exact absurd he.symm hc
        | inr hm => exact hm
      cases hsp : splitOnDot cs with
      | nil => exact absurd hsp (splitOnDot_ne_nil cs)
      | cons g gs =>
        rw [splitOnDot_cons_ne c cs hc g gs hsp]
        have h2 := ih hcs
        rw [hsp] at h2
        simpa using h2

/-- The last group of `splitOnDot` is exactly the dot-free suffix that
follows the final `.` of a character list containing a dot. -/
theorem splitOnDot_last_decomp (cs : List Char) (h : '.' ∈ cs) :
    ∃ pre ex, cs = pre ++ '.' :: ex ∧ '.' ∉ ex ∧ (splitOnDot cs).getLastD [] = ex := by
  induction cs with
  | nil => cases h
  | cons c cs ih =>
    by_cases hc : c = '.'
    · subst hc
      by_cases hcs : '.' ∈ cs
      · obtain ⟨pre, ex, hdecomp, hnd, hlast⟩ := ih hcs
        refine ⟨'.' :: pre, ex, by rw [hdecomp]; rfl, hnd, ?_⟩
        rw [splitOnDot_dot_cons, List.getLastD_cons]
        exact hlast
      · refine ⟨[], cs, rfl, hcs, ?_⟩
        rw [splitOnDot_dot_cons, splitOnDot_no_dot cs hcs, List.getLastD_cons]
        rfl
    · have hcs : '.' ∈ cs := by
        cases List.mem_cons.mp h with
        | inl he => exact absurd he.symm hc
        | inr hm => exact hm
      obtain ⟨pre, ex, hdecomp, hnd, hlast⟩ := ih hcs
      refine ⟨c :: pre, ex, by rw [hdecomp]; rfl, hnd, ?_⟩
      cases hsp : splitOnDot cs with
      | nil => exact absurd hsp (splitOnDot_ne_nil cs)
      | cons g gs =>
        cases gs with
        | nil =>
          have h2 := splitOnDot_two_groups cs hcs
          rw [hsp] at h2
          simp at h2
        | cons g2 gs2 =>
          rw [splitOnDot_cons_ne c cs hc g (g2 :: gs2) hsp, List.getLastD_cons]
          rw [hsp, List.getLastD_cons] at hlast
          exact hlast

/-! ### Helper lemmas about the uuid string -/

theorem hexDigit_mod16_isHex (k : Nat) : isHexChar (hexDigit (k % 16)) = true :=
  (by decide : ∀ n, n < 16 → isHexChar (hexDigit n) = true) _ (Nat.mod_lt _ (by omega))

theorem version_nibble (b : Nat) : (hexDigit ((b % 16 + 64) / 16 % 16) == '4') = true := by
  have h : b % 16 < 16 := Nat.mod_lt _ (by omega)
  have h2 : (b % 16 + 64) / 16 = 4 := by omega
  rw [h2]; decide

theorem variant_nibble (b : Nat) :
    (hexDigit ((b % 64 + 128) / 16 % 16) == '8' || hexDigit ((b % 64 + 128) / 16 % 16) == '9' ||
     hexDigit ((b % 64 + 128) / 16 % 16) == 'a' || hexDigit ((b % 64 + 128) / 16 % 16) == 'b')
      = true :=
  (by decide : ∀ m, m < 64 →
    (hexDigit ((m + 128) / 16 % 16) == '8' || hexDigit ((m + 128) / 16 % 16) == '9' ||
     hexDigit ((m + 128) / 16 % 16) == 'a' || hexDigit ((m + 128) / 16 % 16) == 'b') = true)
    _ (Nat.mod_lt _ (by omega))

/-- Every seed yields a string in UUIDv4 syntax. -/
theorem uuid4_isUUIDv4 (r : Nat) : isUUIDv4 (uuid4 r) = true := by
  simp only [uuid4, byteHex, List.cons_append, List.nil_append, isUUIDv4, List.all_cons,
    List.all_nil, Bool.and_eq_true, Bool.and_true]
  refine ⟨⟨?_, ?_⟩, ?_⟩
  · repeat' apply And.intro
    all_goals exact hexDigit_mod16_isHex _
  · exact version_nibble _
  · exact variant_nibble _

/-! ### Claim theorems -/

/-- C1: for every input triple (fileName, contents, contentType) and every
random seed, the upload generates an id in UUIDv4 syntax and appends
exactly one object to the store, whose key is the id, a dot, and the
lower-cased suffix of the file name after its last dot (the last
`splitOnDot` group is precisely that suffix whenever a dot is present). -/
theorem upload_writes_one_uuid_keyed_object
    (r : Nat) (fn : String) (c : List Nat) (ct : String) (store : List Blob) :
    isUUIDv4 (uuid4 r) = true ∧
    uploadToStore store r fn c ct
      = store ++ [add_file_and_metadata_to_blob_storage r fn c ct] ∧
    (uploadToStore store r fn c ct).length = store.length + 1 ∧
    (add_file_and_metadata_to_blob_storage r fn c ct).name
      = uuid4 r ++ "." ++ extensionOf fn ∧
    ('.' ∈ fn.data → ∃ pre ex, fn.data = pre ++ '.' :: ex ∧ '.' ∉ ex ∧
      extensionOf fn = String.mk (ex.map Char.toLower)) := by
  refine ⟨uuid4_isUUIDv4 r, rfl, by simp [uploadToStore], rfl, ?_⟩
  intro hdot
  obtain ⟨pre, ex, hdecomp, hnd, hlast⟩ := splitOnDot_last_decomp fn.data hdot
  refine ⟨pre, ex, hdecomp, hnd, ?_⟩
  simp only [extensionOf, hlast, lowerStr]

/-- C1 witness: concrete instance at seed 0 and file name `a.mp4`. -/
theorem upload_writes_one_uuid_keyed_object_witness :
    isUUIDv4 (uuid4 0) = true ∧
    (uploadToStore [] 0 "a.mp4" [7] "video/mp4").length = 1 ∧
    ('.' ∈ ("a.mp4" : String).data ∧ extensionOf "a.mp4" = "mp4") := by
  obtain ⟨h1, _, h3, _, h5⟩ :=
    upload_writes_one_uuid_keyed_object 0 "a.mp4" [7] "video/mp4" []
  exact ⟨h1, h3, by decide, by decide⟩

/-- C2: the metadata record attached by the upload is exactly the original
client file name, the generated id, and the three hard-coded placeholder
display fields. -/
theorem upload_metadata_exact
    (r : Nat) (fn : String) (c : List Nat) (ct : String) :
    (add_file_and_metadata_to_blob_storage r fn c ct).metadata
      = [("original_file_name", fn),
         ("uuid", uuid4 r),
         ("author", "Dummy User"),
         ("title", "Dummy title"),
         ("badge", "dummy badge")] := rfl

/-- Inversion of one successful `gallery` step. -/
theorem gallery_cons_inv (b : Blob) (bs : List Blob) (recs : List GalleryRecord)
    (h : gallery (b :: bs) = some recs) :
    ∃ rec0 recs0, projectBlob b = some rec0 ∧ gallery bs = some recs0 ∧
      recs = rec0 :: recs0 := by
  unfold gallery at h
  cases hp : projectBlob b with
  | none => rw [hp] at h; exact absurd h (by simp)
  | some rec0 =>
    cases hg : gallery bs with
    | none => rw [hp, hg] at h; exact absurd h (by simp)
    | some recs0 =>
      rw [hp, hg] at h
      exact ⟨rec0, recs0, rfl, rfl, by injection h with h2; exact h2.symm⟩

/-- Inversion of one successful metadata projection. -/
theorem projectBlob_inv (b : Blob) (rec : GalleryRecord)
    (h : projectBlob b = some rec) :
    ∃ u a t bd,
      b.metadata.lookup "uuid" = some u ∧
      b.metadata.lookup "author" = some a ∧
      b.metadata.lookup "title" = some t ∧
      b.metadata.lookup "badge" = some bd ∧
      rec = ⟨u, placeholderImageUrl, a, t, bd⟩ := by
  unfold projectBlob at h
  cases hu : b.metadata.lookup "uuid" with
  | none => rw [hu] at h; exact absurd h (by simp)
  | some u =>
    cases ha : b.metadata.lookup "author" with
    | none => rw [hu, ha] at h; exact absurd h (by simp)
    | some a =>
      cases ht : b.metadata.lookup "title" with
      | none => rw [hu, ha, ht] at h; exact absurd h (by simp)
      | some t =>
        cases hb : b.metadata.lookup "badge" with
        | none => rw [hu, ha, ht, hb] at h; exact absurd h (by simp)
        | some bd =>
          rw [hu, ha, ht, hb] at h
          refine ⟨u, a, t, bd, rfl, rfl, rfl, rfl, ?_⟩
          injection h with h2
          exact h2.symm

/-- C3: a successful listing has exactly one record per stored object, and
the i-th record is the projection of the i-th object's metadata keys with
the hard-coded placeholder image URL. -/
theorem gallery_one_record_per_blob
    (store : List Blob) (recs : List GalleryRecord)
    (h : gallery store = some recs) :
    recs.length = store.length ∧
    ∀ i (hi : i < store.length) (hi2 : i < recs.length),
      ∃ u a t bd,
        (store.get ⟨i, hi⟩).metadata.lookup "uuid" = some u ∧
        (store.get ⟨i, hi⟩).metadata.lookup "author" = some a ∧
        (store.get ⟨i, hi⟩).metadata.lookup "title" = some t ∧
        (store.get ⟨i, hi⟩).metadata.lookup "badge" = some bd ∧
        recs.get ⟨i, hi2⟩ = ⟨u, placeholderImageUrl, a, t, bd⟩ := by
  induction store generalizing recs with
  | nil =>
    unfold gallery at h
    injection h with h2
    subst h2
    exact ⟨rfl, fun i hi _ => absurd hi (by simp)⟩
  | cons b bs ih =>
    obtain ⟨rec0, recs0, hp, hg, hrecs⟩ := gallery_cons_inv b bs recs h
    subst hrecs
    obtain ⟨hlen, hproj⟩ := ih recs0 hg
    refine ⟨by simp [hlen], ?_⟩
    intro i hi hi2
    cases i with
    | zero =>
      obtain ⟨u, a, t, bd, hu, ha, ht, hb, hrec⟩ := projectBlob_inv b rec0 hp
      exact ⟨u, a, t, bd, hu, ha, ht, hb, hrec⟩
    | succ j =>
      have hj : j < bs.length := by simpa using hi
      have hj2 : j < recs0.length := by simpa using hi2
      obtain ⟨u, a, t, bd, hu, ha, ht, hb, hrec⟩ := hproj j hj hj2
      exact ⟨u, a, t, bd, hu, ha, ht, hb, hrec⟩

/-- C3 witness: a one-blob store lists to exactly one record. -/
theorem gallery_one_record_per_blob_witness :
    ([⟨"u0", placeholderImageUrl, "A", "T", "B"⟩] : List GalleryRecord).length
      = ([⟨"u0.mp4", [1], "video/mp4",
          [("uuid", "u0"), ("author", "A"), ("title", "T"), ("badge", "B")]⟩]
            : List Blob).length :=
  (gallery_one_record_per_blob
    [⟨"u0.mp4", [1], "video/mp4",
      [("uuid", "u0"), ("author", "A"), ("title", "T"), ("badge", "B")]⟩]
    [⟨"u0", placeholderImageUrl, "A", "T", "B"⟩] rfl).1

/-- A projection with a missing expected key yields no record. -/
theorem projectBlob_none_of_missing (b : Blob)
    (hmiss : b.metadata.lookup "uuid" = none ∨ b.metadata.lookup "author" = none ∨
      b.metadata.lookup "title" = none ∨ b.metadata.lookup "badge" = none) :
    projectBlob b = none := by
  unfold projectBlob
  rcases hmiss with h | h | h | h <;> rw [h] <;>
    rcases b.metadata.lookup "uuid" with _ | u <;>
    rcases b.metadata.lookup "author" with _ | a <;>
    rcases b.metadata.lookup "title" with _ | t <;>
    rcases b.metadata.lookup "badge" with _ | bd <;> rfl

/-- A failed projection of any member blob aborts the whole listing. -/
theorem gallery_none_of_member (store : List Blob) (b : Blob) (hmem : b ∈ store)
    (hp : projectBlob b = none) : gallery store = none := by
  induction store with
  | nil => cases hmem
  | cons b0 bs ih =>
    cases List.mem_cons.mp hmem with
    | inl he =>
      subst he
      unfold gallery
      rw [hp]
    | inr hm =>
      unfold gallery
      rw [ih hm]
      rcases projectBlob b0 with _ | rec0 <;> rfl

/-- C4: when a stored object's metadata lacks one of the expected keys
(uuid, author, title or badge), the projection raises a key-not-found
condition and the whole listing fails; no default value is substituted. -/
theorem gallery_fails_on_missing_key
    (store : List Blob) (b : Blob) (hmem : b ∈ store)
    (hmiss : b.metadata.lookup "uuid" = none ∨ b.metadata.lookup "author" = none ∨
      b.metadata.lookup "title" = none ∨ b.metadata.lookup "badge" = none) :
    projectBlob b = none ∧ gallery store = none ∧ (galleryRun store).records = none := by
  have hp := projectBlob_none_of_missing b hmiss
  have hg := gallery_none_of_member store b hmem hp
  refine ⟨hp, hg, ?_⟩
  unfold galleryRun
  rw [hg]

/-- C4 witness: one blob whose metadata lacks the `uuid` key makes the
listing fail. -/
theorem gallery_fails_on_missing_key_witness :
    gallery [⟨"x.mp4", [1], "video/mp4",
      [("author", "A"), ("title", "T"), ("badge", "B")]⟩] = none :=
  (gallery_fails_on_missing_key
    [⟨"x.mp4", [1], "video/mp4", [("author", "A"), ("title", "T"), ("badge", "B")]⟩]
    ⟨"x.mp4", [1], "video/mp4", [("author", "A"), ("title", "T"), ("badge", "B")]⟩
    (by simp) (Or.inl rfl)).2.1

/-- C5: a file name without any dot is not rejected: the upload succeeds
and produces the degenerate key made of the id, a dot, and the whole
lower-cased file name. -/
theorem upload_no_dot_degenerate_key
    (r : Nat) (fn : String) (c : List Nat) (ct : String) (hnd : '.' ∉ fn.data) :
    extensionOf fn = lowerStr fn ∧
    (add_file_and_metadata_to_blob_storage r fn c ct).name
      = uuid4 r ++ "." ++ lowerStr fn ∧
    (addFileRun (Except.ok ()) r fn c ct).result
      = Except.ok (add_file_and_metadata_to_blob_storage r fn c ct) := by
  have hext : extensionOf fn = lowerStr fn := by
    simp only [extensionOf, splitOnDot_no_dot fn.data hnd, List.getLastD_cons]
    rfl
  refine ⟨hext, ?_, rfl⟩
  show uuid4 r ++ "." ++ extensionOf fn = uuid4 r ++ "." ++ lowerStr fn
  rw [hext]

/-- C5 witness: the spec's own example `store("noext", b, "video/mp4")`. -/
theorem upload_no_dot_degenerate_key_witness :
    extensionOf "noext" = lowerStr "noext" ∧
    (add_file_and_metadata_to_blob_storage 0 "noext" [2] "video/mp4").name
      = uuid4 0 ++ "." ++ lowerStr "noext" :=
  ⟨(upload_no_dot_degenerate_key 0 "noext" [2] "video/mp4" (by decide)).1,
   (upload_no_dot_degenerate_key 0 "noext" [2] "video/mp4" (by decide)).2.1⟩

/-- C6: uploading `clip.MP4` with content type `video/mp4` yields a key
whose extension is the lower-cased `mp4`, and the stored content type is
exactly the client-supplied MIME type. -/
theorem upload_clip_mp4_roundtrip (r : Nat) (c : List Nat) :
    extensionOf "clip.MP4" = "mp4" ∧
    (add_file_and_metadata_to_blob_storage r "clip.MP4" c "video/mp4").name
      = uuid4 r ++ "." ++ "mp4" ∧
    (add_file_and_metadata_to_blob_storage r "clip.MP4" c "video/mp4").contentType
      = "video/mp4" := by
  refine ⟨rfl, ?_, rfl⟩
  show uuid4 r ++ "." ++ extensionOf "clip.MP4" = uuid4 r ++ "." ++ "mp4"
  rw [show extensionOf "clip.MP4" = "mp4" from rfl]

/-- C7: two uploads with identical inputs whose generated ids differ (the
UUIDv4 collision bound makes equal ids overwhelmingly improbable) append
two distinct objects with distinct keys and distinct stored ids; the store
never deduplicates, so the container always grows by two. -/
theorem upload_twice_never_deduplicates
    (r1 r2 : Nat) (hne : uuid4 r1 ≠ uuid4 r2)
    (fn : String) (c : List Nat) (ct : String) (store : List Blob) :
    uploadToStore (uploadToStore store r1 fn c ct) r2 fn c ct
      = store ++ [add_file_and_metadata_to_blob_storage r1 fn c ct,
                  add_file_and_metadata_to_blob_storage r2 fn c ct] ∧
    (uploadToStore (uploadToStore store r1 fn c ct) r2 fn c ct).length
      = store.length + 2 ∧
    (add_file_and_metadata_to_blob_storage r1 fn c ct).name
      ≠ (add_file_and_metadata_to_blob_storage r2 fn c ct).name ∧
    add_file_and_metadata_to_blob_storage r1 fn c ct
      ≠ add_file_and_metadata_to_blob_storage r2 fn c ct ∧
    (add_file_and_metadata_to_blob_storage r1 fn c ct).metadata.lookup "uuid"
      = some (uuid4 r1) ∧
    (add_file_and_metadata_to_blob_storage r2 fn c ct).metadata.lookup "uuid"
      = some (uuid4 r2) := by
  have hname : (add_file_and_metadata_to_blob_storage r1 fn c ct).name
      ≠ (add_file_and_metadata_to_blob_storage r2 fn c ct).name := by
    show uuid4 r1 ++ "." ++ extensionOf fn ≠ uuid4 r2 ++ "." ++ extensionOf fn
    intro he
    apply hne
    have hd : (uuid4 r1 ++ "." ++ extensionOf fn).data
        = (uuid4 r2 ++ "." ++ extensionOf fn).data := by rw [he]
    rw [String.data_append, String.data_append, String.data_append, String.data_append,
      List.append_assoc, List.append_assoc] at hd
    exact String.ext (List.append_cancel_right hd)
  refine ⟨by simp [uploadToStore], by simp [uploadToStore], hname, ?_, rfl, rfl⟩
  intro he
  exact hname (congrArg Blob.name he)

/-- C7 witness: seeds 0 and 1 generate different ids, and the double upload
of the same file grows an empty store to two objects with distinct keys. -/
theorem upload_twice_never_deduplicates_witness :
    (uploadToStore (uploadToStore [] 0 "a.mp4" [3] "video/mp4") 1 "a.mp4" [3] "video/mp4").length
      = 2 ∧
    (add_file_and_metadata_to_blob_storage 0 "a.mp4" [3] "video/mp4").name
      ≠ (add_file_and_metadata_to_blob_storage 1 "a.mp4" [3] "video/mp4").name := by
  obtain ⟨_, h2, h3, _⟩ :=
    upload_twice_never_deduplicates 0 1 (by decide) "a.mp4" [3] "video/mp4" []
  exact ⟨h2, h3⟩

/-- C8: a storage error raised by the single write is surfaced to the
caller unchanged, and exactly one write is attempted whether the write
succeeds or fails — no error is swallowed and nothing is retried. -/
theorem upload_error_surfaced_unchanged
    (e : String) (r : Nat) (fn : String) (c : List Nat) (ct : String) :
    (addFileRun (Except.error e) r fn c ct).result = Except.error e ∧
    (addFileRun (Except.error e) r fn c ct).writeAttempts = 1 ∧
    (addFileRun (Except.ok ()) r fn c ct).writeAttempts = 1 ∧
    (addFileRun (Except.ok ()) r fn c ct).result
      = Except.ok (add_file_and_metadata_to_blob_storage r fn c ct) :=
  ⟨rfl, rfl, rfl, rfl⟩

/-- C9 counterexample: the claim that the client handles are released on
every exit path is false — on the failure paths the `close()` calls are
skipped, because neither handler has a `try`/`finally`: a listing that hits
a missing metadata key leaves both gallery clients unclosed, and a failed
`upload_blob` leaves the blob client unclosed. -/
theorem close_skipped_on_failure_paths :
    (galleryRun [⟨"x.mp4", [1], "video/mp4", []⟩]).containerClosed = false ∧
    (galleryRun [⟨"x.mp4", [1], "video/mp4", []⟩]).serviceClosed = false ∧
    (addFileRun (Except.error "storage write failed") 0 "clip.mp4" [1]
      "video/mp4").blobClosed = false :=
  ⟨rfl, rfl, rfl⟩

/-- C9 (amended): the store clients are closed exactly on the successful
exit path — both gallery clients are closed when the listing completes,
and the blob client is closed when the write succeeds; on the failure
paths (a raised write error, or a listing aborted by a missing metadata
key) no close runs. -/
theorem handles_closed_on_success_only
    (store : List Blob) (recs : List GalleryRecord) (h : gallery store = some recs)
    (r : Nat) (fn : String) (c : List Nat) (ct : String) (e : String) :
    (galleryRun store).containerClosed = true ∧
    (galleryRun store).serviceClosed = true ∧
    (galleryRun store).records = some recs ∧
    (addFileRun (Except.ok ()) r fn c ct).blobClosed = true ∧
    (addFileRun (Except.error e) r fn c ct).blobClosed = false ∧
    (∀ store2, gallery store2 = none →
      (galleryRun store2).containerClosed = false ∧
      (galleryRun store2).serviceClosed = false) := by
  refine ⟨?_, ?_, ?_, rfl, rfl, ?_⟩
  · unfold galleryRun; rw [h]
  · unfold galleryRun; rw [h]
  · unfold galleryRun; rw [h]
  · intro store2 h2
    unfold galleryRun
    rw [h2]
    exact ⟨rfl, rfl⟩

/-- C9 amended-claim witness: the empty container lists successfully and
closes both clients; a failed write leaves the blob client open. -/
theorem handles_closed_on_success_only_witness :
    (galleryRun []).containerClosed = true ∧
    (addFileRun (Except.error "boom") 0 "a.mp4" [] "video/mp4").blobClosed = false := by
  obtain ⟨h1, _, _, _, h5, _⟩ :=
    handles_closed_on_success_only [] [] rfl 0 "a.mp4" [] "video/mp4" "boom"
  exact ⟨h1, h5⟩

/-- C10: the value stored under the metadata key `uuid` is exactly the stem
of the object key — the key is that value, a dot, and the extension — so
the id later projected by the lister identifies the stored object's key. -/
theorem uuid_metadata_is_key_stem
    (r : Nat) (fn : String) (c : List Nat) (ct : String) :
    (add_file_and_metadata_to_blob_storage r fn c ct).metadata.lookup "uuid"
      = some (uuid4 r) ∧
    (add_file_and_metadata_to_blob_storage r fn c ct).name
      = uuid4 r ++ "." ++ extensionOf fn ∧
    (∀ u, (add_file_and_metadata_to_blob_storage r fn c ct).metadata.lookup "uuid"
        = some u →
      (add_file_and_metadata_to_blob_storage r fn c ct).name
        = u ++ "." ++ extensionOf fn) ∧
    projectBlob (add_file_and_metadata_to_blob_storage r fn c ct)
      = some ⟨uuid4 r, placeholderImageUrl, "Dummy User", "Dummy title",
          "dummy badge"⟩ := by
  refine ⟨rfl, rfl, ?_, rfl⟩
  intro u hu
  have : u = uuid4 r := by
    have := hu.symm.trans (rfl : (add_file_and_metadata_to_blob_storage r fn c
      ct).metadata.lookup "uuid" = some (uuid4 r))
    injection this
  rw [this]
  rfl

/-- C10 witness: concrete instance at seed 0 and file name `a.mp4`. -/
theorem uuid_metadata_is_key_stem_witness :
    (add_file_and_metadata_to_blob_storage 0 "a.mp4" [5] "video/mp4").metadata.lookup
      "uuid" = some (uuid4 0) :=
  (uuid_metadata_is_key_stem 0 "a.mp4" [5] "video/mp4").1
